import Mathlib

/-!
Verification of the rank-discovery engine and write pipeline of the
`ozon-sku` repository.

The definitions below are a shallow embedding of the Python sources:
  * `src/parser/browser.py` — SKU extraction (`extract_sku`, regex
    `/product/[^/]+-(\d+)/`), snapshot unwrapping (`_unwrap_js_value`,
    `get_product_hrefs`), and the scan loop of `find_sku_position`;
  * `src/main.py` — the per-query retry loop, the result-to-cell-value
    mapping, and the `sheets_writer` queue consumer;
  * `src/services/sheets.py` — the `write_result(row, value)` sink.

External I/O (the browser tab, the event loop, Google Sheets) is replaced
by explicit data: a feed is the list of successive DOM snapshots (each a
list of href strings), the queue is the list of items the producer put,
and the sink is a function argument.
-/

/-! ## SKU extraction: `SKU_PATTERN = re.compile(r"/product/[^/]+-(\d+)/")`
and `extract_sku` (browser.py lines 10, 38-41).

`re.search` scans start positions left to right; at a start the pattern
must read the literal `/product/`, then a nonempty run of non-`'/'`
characters, then `'-'`, then a nonempty digit group, then `'/'`.  Since
neither `[^/]+` nor `\d+` can cross a `'/'`, the closing slash is the
first `'/'` after the literal, and greedy backtracking selects the digit
group as the maximal all-digit run at the end of that segment, preceded
by `'-'` with a nonempty head before the dash. -/

def litProduct : List Char := ['/', 'p', 'r', 'o', 'd', 'u', 'c', 't', '/']

/-- Consume the literal `lit` at the head of `cs`; `none` if it does not
match. -/
def dropLit : List Char → List Char → Option (List Char)
  | [], cs => some cs
  | _ :: _, [] => none
  | l :: ls, c :: cs => if c = l then dropLit ls cs else none

/-- Match `[^/]+-(\d+)` against the whole segment `seg` (the characters
between the literal and the next `'/'`), returning the captured digit
group of the greedy match. -/
def lastDashSplit (seg : List Char) : Option (List Char) :=
  let rs := seg.reverse
  let ds := rs.takeWhile Char.isDigit
  match rs.drop ds.length with
  | '-' :: rest =>
    if ds = [] then none
    else if rest = [] then none
    else some ds.reverse
  | _ => none

/-- Try the whole pattern anchored at the current position. -/
def matchAt (cs : List Char) : Option (List Char) :=
  match dropLit litProduct cs with
  | none => none
  | some rest =>
    let seg := rest.takeWhile (fun c => ¬ c = '/')
    match rest.dropWhile (fun c => ¬ c = '/') with
    | '/' :: _ => lastDashSplit seg
    | _ => none

/-- `re.search`: first start position (left to right) where the pattern
matches. -/
def searchFrom : List Char → Option (List Char)
  | [] => none
  | c :: cs =>
    match matchAt (c :: cs) with
    | some ds => some ds
    | none => searchFrom cs

/-- `extract_sku(href)`: the digit group of the first match of
`SKU_PATTERN`, or `None`. -/
def extract_sku (href : String) : Option String :=
  (searchFrom href.data).map (fun ds => String.mk ds)

/-! ## The scan loop of `find_sku_position` (browser.py lines 162-231). -/

/-- Terminal branch of the scan loop.  The Python function returns a dict
only in the `found` case and `None` otherwise; the three exit paths are
distinguishable in the source (early `return` at line 190, `break` at
line 209, the `while` condition failing at line 166) and by the log lines
at 208 and 229. -/
inductive Outcome where
  | found (position : Nat) (totalItems : Nat)
  | notFound (totalItems : Nat)
  | overflow (totalItems : Nat)
deriving DecidableEq

/-- The `seen_skus` dict: insertion-ordered association list (Python
dicts preserve insertion order); `k in d` / `d[k]` is first-match
lookup. -/
def tblLookup : List (String × Nat) → String → Option Nat
  | [], _ => none
  | (k, v) :: t, s => if k = s then some v else tblLookup t s

/-- One round's inner `for href in hrefs` loop (browser.py lines
180-194): extract the SKU, skip it when extraction fails or it is
already seen, otherwise assign position `len(seen_skus) + 1`, and return
immediately when the newly assigned SKU equals the target.  Returns the
updated table and the `(position, total_items)` of an early return. -/
def processHrefs (target : String) (seen : List (String × Nat)) :
    List String → List (String × Nat) × Option (Nat × Nat)
  | [] => (seen, none)
  | href :: rest =>
    match extract_sku href with
    | none => processHrefs target seen rest
    | some sku =>
      match tblLookup seen sku with
      | some _ => processHrefs target seen rest
      | none =>
        let position := seen.length + 1
        let seen2 := seen ++ [(sku, position)]
        if sku = target then (seen2, some (position, seen2.length))
        else processHrefs target seen2 rest

/-- The `while len(seen_skus) < max_items` loop (browser.py lines
166-226).  The feed is modelled as the list of successive snapshots
(`get_product_hrefs` results); each iteration consumes one snapshot.
Returns the terminal branch (`none` if the modelled feed ran out while
the loop was still running) together with the final table. -/
def scanLoop (target : String) (maxItems staleThreshold : Nat) :
    List (String × Nat) → Nat → List (List String) →
    Option Outcome × List (String × Nat)
  | seen, _, [] =>
    if maxItems ≤ seen.length then (some (Outcome.overflow seen.length), seen)
    else (none, seen)
  | seen, stale, hrefs :: rest =>
    if maxItems ≤ seen.length then (some (Outcome.overflow seen.length), seen)
    else
      match processHrefs target seen hrefs with
      | (seen2, some pt) => (some (Outcome.found pt.1 pt.2), seen2)
      | (seen2, none) =>
        if seen2.length = seen.length then
          if staleThreshold ≤ stale + 1 then
            (some (Outcome.notFound seen2.length), seen2)
          else scanLoop target maxItems staleThreshold seen2 (stale + 1) rest
        else scanLoop target maxItems staleThreshold seen2 0 rest

/-- The dict returned by `find_sku_position` on success (browser.py lines
190-194): keys `sku`, `position`, `total_items` — and no others. -/
structure FindResult where
  sku : String
  position : Nat
  total_items : Nat
deriving DecidableEq

/-- `find_sku_position`: `None` when `wait_for_products` failed
(lines 150-152, modelled by the `productsLoaded` flag), the dict on the
early `found` return, and `None` on the not-found / overflow exits. -/
def find_sku_position (productsLoaded : Bool) (target : String)
    (maxItems staleThreshold : Nat) (snaps : List (List String)) :
    Option FindResult :=
  if productsLoaded then
    match (scanLoop target maxItems staleThreshold [] 0 snaps).1 with
    | some (Outcome.found p t) => some ⟨target, p, t⟩
    | _ => none
  else none

/-! ## `main.py`: result-to-value mapping, retry loop, write pipeline. -/

/-- The value written for a completed query (main.py lines 90-98): the
dict always carries a `position` key, so `result and "position" in
result` is just `result is not None`; `is_found = position < 1000`;
`value = str(position) if is_found else "1000+"`. -/
def result_to_value (result : Option FindResult) : String × Bool :=
  match result with
  | some r =>
    if r.position < 1000 then (toString r.position, true) else (("1000+"), false)
  | none => (("1000+"), false)

/-- Python truthiness of an optional dict value, as used by
`result.get("needs_retry")` in a boolean context. -/
def pyTruthyNat : Option Nat → Bool
  | none => false
  | some n => ¬ n = 0

/-- `result.get("needs_retry")` (main.py line 79): the dict built by
`find_sku_position` (browser.py lines 190-194) has exactly the keys
`sku`, `position` and `total_items`, so `.get` of `"needs_retry"` is
always `None`. -/
def FindResult.get_needs_retry (_ : FindResult) : Option Nat := none

/-- The `for attempt in range(max_retries)` loop of main.py lines 66-88:
each attempt opens the page and runs `find_sku_position` (modelled by
`attempts : Nat → Option FindResult`, attempt index to its result).  If
the result is truthy and its `needs_retry` entry is truthy, the result is
reset to `None` and the loop continues; otherwise it breaks with the
current result.  Falling off the end of the range leaves the reset
`None`. -/
def retry_go (attempts : Nat → Option FindResult) : Nat → Nat → Option FindResult
  | 0, _ => none
  | fuel + 1, k =>
    match attempts k with
    | none => none
    | some r =>
      if pyTruthyNat r.get_needs_retry then retry_go attempts fuel (k + 1)
      else some r

/-- One query's search with retries (`max_retries = 3` at main.py
line 66). -/
def search_with_retry (attempts : Nat → Option FindResult)
    (maxRetries : Nat) : Option FindResult :=
  retry_go attempts maxRetries 0

/-- A queue item `(row, value, is_found)` (main.py line 101); the
terminal marker `None` (line 104) is modelled as `none` in the queue
list. -/
structure WriteJob where
  row : Nat
  value : String
  is_found : Bool
deriving DecidableEq

/-- The `sheets_writer` consumer (main.py lines 13-31) run over the
final queue contents in FIFO order.  On a normal job the external writer
is invoked; its result (`Except.error` = an exception, caught and logged
by the `try/except`) never affects control flow; `task_done` runs in the
`finally`.  On the `None` marker the consumer acknowledges and breaks.
Returns the invocation log (job, writer outcome) in order, whether the
marker was consumed, and the queue items left after the consumer
stopped. -/
def sheets_writer_loop (writer : WriteJob → Except String Unit) :
    List (Option WriteJob) →
    List (WriteJob × Except String Unit) × Bool × List (Option WriteJob)
  | [] => ([], false, [])
  | none :: rest => ([], true, rest)
  | some j :: rest =>
    let r := writer j
    let out := sheets_writer_loop writer rest
    ((j, r) :: out.1, out.2.1, out.2.2)

/-- Parameter count of `write_result` in `src/services/sheets.py`
line 83: `def write_result(row: int, value: str) -> None`. -/
def write_result_paramcount : Nat := 2

/-- Python call semantics for `write_result`: a call whose positional
argument count differs from the parameter count raises `TypeError`
before the body runs; otherwise the body performs the single-cell
update. -/
def call_write_result (argcount : Nat) : Except String Unit :=
  if argcount = write_result_paramcount then Except.ok ()
  else Except.error ("TypeError")

/-- The writer invocation made by `sheets_writer` (main.py lines 24-26):
`run_in_executor(None, write_result, row, value, is_found)` — three
positional arguments. -/
def sheets_writer_invoke (_ : WriteJob) : Except String Unit :=
  call_write_result 3

/-! ## `_unwrap_js_value` and `get_product_hrefs` (browser.py lines
44-78) over a model of the dynamically typed values crossing the JS
evaluation boundary. -/

/-- Python values that can reach `get_product_hrefs`: strings, ints,
bools, `None`, lists and string-keyed dicts. -/
inductive PyObj where
  | pstr (s : String)
  | pint (n : Int)
  | pbool (b : Bool)
  | pnone
  | plist (xs : List PyObj)
  | pdict (kvs : List (String × PyObj))

/-- Dict key membership (`"type" in result`); first-match like lookup on
the association list (real dicts have unique keys). -/
def hasKey (kvs : List (String × PyObj)) (k : String) : Bool :=
  kvs.any (fun kv => kv.1 = k)

mutual

/-- `_unwrap_js_value` (browser.py lines 44-53): a dict carrying both
`type` and `value` keys is replaced by its `value` — element-wise
unwrapped when that value is a list, returned as-is otherwise; a bare
list is unwrapped element-wise; everything else is returned unchanged. -/
def unwrap_js_value : PyObj → PyObj
  | PyObj.pdict kvs =>
    if hasKey kvs ("type") && hasKey kvs ("value") then unwrapValueEntry kvs
    else PyObj.pdict kvs
  | PyObj.plist xs => PyObj.plist (unwrapList xs)
  | v => v

/-- `result["value"]` followed by the list test: walk to the first
`value` entry (present, by the `hasKey` guard) and apply the
list/non-list branch of `_unwrap_js_value` to it. -/
def unwrapValueEntry : List (String × PyObj) → PyObj
  | [] => PyObj.pnone
  | (k, v) :: rest =>
    if k = ("value") then
      match v with
      | PyObj.plist xs => PyObj.plist (unwrapList xs)
      | v' => v'
    else unwrapValueEntry rest

/-- `[_unwrap_js_value(item) for item in value]`. -/
def unwrapList : List PyObj → List PyObj
  | [] => []
  | x :: xs => unwrap_js_value x :: unwrapList xs

end

/-- Python iteration as used by the final list comprehension
`[h for h in hrefs if isinstance(h, str)]`: lists yield their elements,
strings yield their characters as one-character strings, dicts yield
their keys; ints, bools and `None` raise `TypeError`. -/
def pyIter : PyObj → Except String (List PyObj)
  | PyObj.plist xs => Except.ok xs
  | PyObj.pstr s => Except.ok (s.data.map (fun c => PyObj.pstr (String.mk [c])))
  | PyObj.pdict kvs => Except.ok (kvs.map (fun kv => PyObj.pstr kv.1))
  | _ => Except.error ("TypeError")

/-- `get_product_hrefs` (browser.py lines 56-78) after the
`tab.evaluate` call: unwrap the raw value; if it is a string, parse it
with `json.loads` (modelled by the `loads` argument; a decode failure is
caught and leaves `hrefs = []`); if it is a list take it as-is;
otherwise `hrefs` stays `[]`.  Finally keep the elements of `hrefs` that
are strings — iterating `hrefs` this way raises `TypeError` when it is
not iterable. -/
def get_product_hrefs (loads : String → Except Unit PyObj) (raw : PyObj) :
    Except String (List String) :=
  let result := unwrap_js_value raw
  let hrefs : PyObj :=
    match result with
    | PyObj.pstr s =>
      match loads s with
      | Except.ok v => v
      | Except.error _ => PyObj.plist []
    | PyObj.plist xs => PyObj.plist xs
    | _ => PyObj.plist []
  match pyIter hrefs with
  | Except.ok items =>
    Except.ok (items.filterMap (fun x =>
      match x with
      | PyObj.pstr s => some s
      | _ => none))
  | Except.error e => Except.error e

/-- Concrete query data for the position-1000 run: the `i`-th SKU is the
string of `i` ones. -/
def skuOnes (i : Nat) : String := String.mk (List.replicate i ('1'))

def bigHref (i : Nat) : String := ("/product/a-") ++ skuOnes i ++ ("/")

def skuList (n : Nat) : List String := (List.range n).map (fun i => skuOnes (i + 1))

def snapFront : List String := (List.range 999).map (fun i => bigHref (i + 1))

/-- A single snapshot holding 1000 distinct products, the target last. -/
def snapBig : List String := (List.range 1000).map (fun i => bigHref (i + 1))

def targetBig : String := skuOnes 1000

/-- The implicit well-formedness of `seen_skus`: the positions, read in
insertion order, are exactly `1, 2, ..., size`, and keys are unique. -/
def RankTableWF (tbl : List (String × Nat)) : Prop :=
  tbl.map Prod.snd = List.range' 1 tbl.length ∧ (tbl.map Prod.fst).Nodup

/-- `json.loads` behaviour at the concrete input `"42"`: the decimal
literal decodes to the integer 42 (any other input left undecodable for
this witness). -/
def loadsFortyTwo : String → Except Unit PyObj :=
  fun s => if s = ("42") then Except.ok (PyObj.pint 42) else Except.error ()


/-! ## Helper lemmas. -/

theorem tblLookup_append {l l' : List (String × Nat)} {k : String} :
    tblLookup (l ++ l') k =
      match tblLookup l k with
      | some v => some v
      | none => tblLookup l' k := by
  induction l with
  | nil => simp [tblLookup]
  | cons p t ih =>
    obtain ⟨a, b⟩ := p
    by_cases hk : a = k
    · simp [tblLookup, hk]
    · simp [tblLookup, hk, ih]

theorem tblLookup_append_some {l l' : List (String × Nat)} {k : String} {v : Nat}
    (h : tblLookup l k = some v) : tblLookup (l ++ l') k = some v := by
  rw [tblLookup_append, h]

theorem tblLookup_append_none {l l' : List (String × Nat)} {k : String}
    (h : tblLookup l k = none) : tblLookup (l ++ l') k = tblLookup l' k := by
  rw [tblLookup_append, h]

theorem tblLookup_eq_none_iff {l : List (String × Nat)} {k : String} :
    tblLookup l k = none ↔ k ∉ l.map Prod.fst := by
  induction l with
  | nil => simp [tblLookup]
  | cons p t ih =>
    obtain ⟨a, b⟩ := p
    by_cases hk : a = k
    · simp [tblLookup, hk]
    · simp [tblLookup, hk, ih, Ne.symm hk]

/-- Composition of the inner loop over a split href list: if the target
was found in the first part the second part is never read. -/
theorem processHrefs_append (target : String) (seen : List (String × Nat))
    (xs ys : List String) :
    processHrefs target seen (xs ++ ys) =
      match processHrefs target seen xs with
      | (t, some pt) => (t, some pt)
      | (t, none) => processHrefs target t ys := by
  induction xs generalizing seen with
  | nil => simp [processHrefs]
  | cons h rest ih =>
    rw [List.cons_append]
    cases hx : extract_sku h with
    | none => simp [processHrefs, hx, ih]
    | some sku =>
      cases hl : tblLookup seen sku with
      | some v => simp [processHrefs, hx, hl, ih]
      | none =>
        by_cases ht : sku = target
        · subst ht; simp [processHrefs, hx, hl]
        · simp [processHrefs, hx, hl, ht, ih]

theorem tblLookup_left_none {l l' : List (String × Nat)} {k : String}
    (h : tblLookup (l ++ l') k = none) : tblLookup l k = none := by
  cases hl : tblLookup l k with
  | none => rfl
  | some v => rw [tblLookup_append_some hl] at h; cases h

/-- Structure of the table after one inner loop: the old table is kept
as a prefix; the new entries carry consecutive positions continuing the
old size, have pairwise distinct keys, and keys absent from the old
table. -/
theorem processHrefs_table (target : String) (hs : List String)
    (seen : List (String × Nat)) :
    ∃ d, (processHrefs target seen hs).1 = seen ++ d
      ∧ d.map Prod.snd = List.range' (seen.length + 1) d.length
      ∧ (d.map Prod.fst).Nodup
      ∧ ∀ p ∈ d, tblLookup seen p.1 = none := by
  induction hs generalizing seen with
  | nil => exact ⟨[], by simp [processHrefs]⟩
  | cons h rest ih =>
    cases hx : extract_sku h with
    | none =>
      obtain ⟨d, h1, h2, h3, h4⟩ := ih seen
      exact ⟨d, by simpa [processHrefs, hx] using h1, h2, h3, h4⟩
    | some sku =>
      cases hl : tblLookup seen sku with
      | some v =>
        obtain ⟨d, h1, h2, h3, h4⟩ := ih seen
        exact ⟨d, by simpa [processHrefs, hx, hl] using h1, h2, h3, h4⟩
      | none =>
        by_cases ht : sku = target
        · subst ht
          refine ⟨[(sku, seen.length + 1)], ?_, by simp, by simp, ?_⟩
          · simp [processHrefs, hx, hl]
          · intro p hp
            rw [List.mem_singleton] at hp
            subst hp
            exact hl
        · obtain ⟨d, h1, h2, h3, h4⟩ := ih (seen ++ [(sku, seen.length + 1)])
          refine ⟨(sku, seen.length + 1) :: d, ?_, ?_, ?_, ?_⟩
          · simpa [processHrefs, hx, hl, ht] using h1
          · simp only [List.map_cons, List.length_cons]
            rw [List.range'_succ]
            congr 1
            simpa using h2
          · simp only [List.map_cons, List.nodup_cons]
            refine ⟨?_, h3⟩
            intro hmem
            obtain ⟨p, hp, hpk⟩ := List.mem_map.mp hmem
            have := h4 p hp
            have hr := @tblLookup_append_none seen [(sku, seen.length + 1)] p.1
              (tblLookup_left_none this)
            rw [hr] at this
            simp [tblLookup, hpk] at this
          · intro p hp
            rcases List.mem_cons.mp hp with hp | hp
            · subst hp; exact hl
            · exact tblLookup_left_none (h4 p hp)

/-- Composition of two table extensions. -/
theorem tableDelta_trans {seen d1 d2 : List (String × Nat)}
    (h2 : d1.map Prod.snd = List.range' (seen.length + 1) d1.length)
    (h3 : (d1.map Prod.fst).Nodup)
    (h4 : ∀ p ∈ d1, tblLookup seen p.1 = none)
    (g2 : d2.map Prod.snd = List.range' ((seen ++ d1).length + 1) d2.length)
    (g3 : (d2.map Prod.fst).Nodup)
    (g4 : ∀ p ∈ d2, tblLookup (seen ++ d1) p.1 = none) :
    (d1 ++ d2).map Prod.snd = List.range' (seen.length + 1) (d1 ++ d2).length
      ∧ ((d1 ++ d2).map Prod.fst).Nodup
      ∧ ∀ p ∈ d1 ++ d2, tblLookup seen p.1 = none := by
  refine ⟨?_, ?_, ?_⟩
  · rw [List.map_append, h2, g2, List.length_append, List.length_append]
    have e : seen.length + d1.length + 1 = seen.length + 1 + d1.length := by omega
    rw [e, List.range'_append_1]
    congr 1
    omega
  · rw [List.map_append]
    rw [List.nodup_append]
    refine ⟨h3, g3, ?_⟩
    intro k hk1 hk2
    obtain ⟨p, hp, hpk⟩ := List.mem_map.mp hk1
    obtain ⟨q, hq, hqk⟩ := List.mem_map.mp hk2
    have hnone := g4 q hq
    have hleft : tblLookup d1 q.1 = none := by
      cases hd : tblLookup d1 q.1 with
      | none => rfl
      | some v =>
        have : tblLookup (seen ++ d1) q.1 = some v := by
          cases hs : tblLookup seen q.1 with
          | none => rw [tblLookup_append_none hs]; exact hd
          | some w => rw [tblLookup_append_some hs] at hnone; cases hnone
        rw [this] at hnone; cases hnone
    rw [tblLookup_eq_none_iff] at hleft
    exact hleft (hqk ▸ hpk ▸ List.mem_map.mpr ⟨p, hp, rfl⟩)
  · intro p hp
    rcases List.mem_append.mp hp with hp | hp
    · exact h4 p hp
    · exact tblLookup_left_none (g4 p hp)

/-- Structure of the final table of the scan loop relative to the table
it started from. -/
theorem scanLoop_table (target : String) (maxItems staleThreshold : Nat)
    (snaps : List (List String)) :
    ∀ (seen : List (String × Nat)) (stale : Nat),
    ∃ d, (scanLoop target maxItems staleThreshold seen stale snaps).2 = seen ++ d
      ∧ d.map Prod.snd = List.range' (seen.length + 1) d.length
      ∧ (d.map Prod.fst).Nodup
      ∧ ∀ p ∈ d, tblLookup seen p.1 = none := by
  induction snaps with
  | nil =>
    intro seen stale
    by_cases h : maxItems ≤ seen.length <;> exact ⟨[], by simp [scanLoop, h]⟩
  | cons s rest ih =>
    intro seen stale
    by_cases hm : maxItems ≤ seen.length
    · exact ⟨[], by simp [scanLoop, hm]⟩
    · obtain ⟨d1, h1, h2, h3, h4⟩ := processHrefs_table target s seen
      cases hp : processHrefs target seen s with
      | mk seen2 found =>
        rw [hp] at h1
        simp only at h1
        subst h1
        cases found with
        | some pt =>
          exact ⟨d1, by simp [scanLoop, hm, hp], h2, h3, h4⟩
        | none =>
          by_cases hg : (seen ++ d1).length = seen.length
          · have hd1 : d1 = [] := by
              rw [List.length_append] at hg
              have : d1.length = 0 := by omega
              exact List.length_eq_zero.mp this
            subst hd1
            by_cases hst : staleThreshold ≤ stale + 1
            · exact ⟨[], by simp [scanLoop, hm, hp, hg, hst], by simp, by simp,
                by simp⟩
            · obtain ⟨d2, g1, g2, g3, g4⟩ := ih seen (stale + 1)
              refine ⟨d2, ?_, g2, g3, g4⟩
              rw [scanLoop]
              simp only [if_neg hm, hp, List.append_nil] at *
              simp [hg, hst, g1]
          · obtain ⟨d2, g1, g2, g3, g4⟩ := ih (seen ++ d1) 0
            have hcomp := tableDelta_trans h2 h3 h4 g2 g3 g4
            refine ⟨d1 ++ d2, ?_, hcomp.1, hcomp.2.1, hcomp.2.2⟩
            have hne : d1 ≠ [] := by
              intro h
              subst h
              simp at hg
            rw [scanLoop]
            simp only [if_neg hm, hp]
            simp [hne, g1, List.append_assoc]

/-- Stale-round termination: starting below the ceiling with stale
counter `stale < staleThreshold`, if the next `staleThreshold - stale`
snapshots produce no change at all, the loop returns
`NotFound` with the current table size, consuming exactly those rounds
(any later snapshots are irrelevant). -/
theorem scanLoop_stale_exact (target : String) (maxItems staleThreshold : Nat)
    (snaps : List (List String)) :
    ∀ (seen : List (String × Nat)) (stale : Nat),
    seen.length < maxItems →
    stale < staleThreshold →
    (∀ s ∈ snaps.take (staleThreshold - stale),
      processHrefs target seen s = (seen, none)) →
    staleThreshold - stale ≤ snaps.length →
    scanLoop target maxItems staleThreshold seen stale snaps
      = (some (Outcome.notFound seen.length), seen) := by
  induction snaps with
  | nil =>
    intro seen stale _ hst _ hlen
    simp at hlen
    omega
  | cons s rest ih =>
    intro seen stale hm hst hstall hlen
    have hk : staleThreshold - stale = (staleThreshold - (stale + 1)) + 1 := by
      omega
    have hs : processHrefs target seen s = (seen, none) := by
      apply hstall
      rw [hk, List.take_succ_cons]
      exact List.mem_cons_self s _
    rw [scanLoop]
    simp only [if_neg (by omega : ¬ maxItems ≤ seen.length), hs]
    by_cases hend : staleThreshold ≤ stale + 1
    · simp [hend]
    · simp only [if_pos rfl, if_neg hend]
      apply ih seen (stale + 1) hm (by omega)
      · intro s' hs'
        apply hstall
        rw [hk, List.take_succ_cons]
        exact List.mem_cons_of_mem s hs'
      · simp at hlen
        omega

/-- While the stalled rounds are still short of the threshold the loop
is still running (the modelled feed ends with no verdict). -/
theorem scanLoop_stale_pending (target : String) (maxItems staleThreshold : Nat)
    (snaps : List (List String)) :
    ∀ (seen : List (String × Nat)) (stale : Nat),
    seen.length < maxItems →
    (∀ s ∈ snaps, processHrefs target seen s = (seen, none)) →
    stale + snaps.length < staleThreshold →
    scanLoop target maxItems staleThreshold seen stale snaps = (none, seen) := by
  induction snaps with
  | nil =>
    intro seen stale hm _ _
    simp [scanLoop, Nat.not_le.mpr hm]
  | cons s rest ih =>
    intro seen stale hm hstall hlen
    have hs : processHrefs target seen s = (seen, none) :=
      hstall s (List.mem_cons_self s rest)
    rw [scanLoop]
    simp only [if_neg (Nat.not_le.mpr hm), hs]
    simp only [List.length_cons] at hlen
    simp only [if_pos rfl, if_neg (by omega : ¬ staleThreshold ≤ stale + 1)]
    exact ih seen (stale + 1) hm
      (fun s' hs' => hstall s' (List.mem_cons_of_mem s hs')) (by omega)

/-- A growth round makes the incoming stale counter irrelevant. -/
theorem scanLoop_growth_resets (target : String) (maxItems staleThreshold : Nat)
    (seen tbl : List (String × Nat)) (st1 st2 : Nat) (s : List String)
    (rest : List (List String))
    (hp : processHrefs target seen s = (tbl, none))
    (hg : tbl.length ≠ seen.length)
    (hm : seen.length < maxItems) :
    scanLoop target maxItems staleThreshold seen st1 (s :: rest)
      = scanLoop target maxItems staleThreshold seen st2 (s :: rest) := by
  rw [scanLoop, scanLoop]
  simp [Nat.not_le.mpr hm, hp, hg]

/-- Step lemma: ceiling reached at a round boundary. -/
theorem scanLoop_overflow_now (target : String) (maxItems staleThreshold : Nat)
    (seen : List (String × Nat)) (stale : Nat) (snaps : List (List String))
    (hm : maxItems ≤ seen.length) :
    scanLoop target maxItems staleThreshold seen stale snaps
      = (some (Outcome.overflow seen.length), seen) := by
  cases snaps <;> simp [scanLoop, hm]

/-- Step lemma: the target was assigned this round. -/
theorem scanLoop_cons_found (target : String) (maxItems staleThreshold : Nat)
    (seen seen2 : List (String × Nat)) (stale : Nat) (s : List String)
    (rest : List (List String)) (pt : Nat × Nat)
    (hm : ¬ maxItems ≤ seen.length)
    (hp : processHrefs target seen s = (seen2, some pt)) :
    scanLoop target maxItems staleThreshold seen stale (s :: rest)
      = (some (Outcome.found pt.1 pt.2), seen2) := by
  rw [scanLoop, if_neg hm, hp]

/-- Step lemma: a stale round that reaches the threshold. -/
theorem scanLoop_cons_stale_end (target : String) (maxItems staleThreshold : Nat)
    (seen seen2 : List (String × Nat)) (stale : Nat) (s : List String)
    (rest : List (List String))
    (hm : ¬ maxItems ≤ seen.length)
    (hp : processHrefs target seen s = (seen2, none))
    (hg : seen2.length = seen.length)
    (hend : staleThreshold ≤ stale + 1) :
    scanLoop target maxItems staleThreshold seen stale (s :: rest)
      = (some (Outcome.notFound seen2.length), seen2) := by
  rw [scanLoop, if_neg hm, hp]
  simp [hg, hend]

/-- Step lemma: a stale round short of the threshold. -/
theorem scanLoop_cons_stale_cont (target : String) (maxItems staleThreshold : Nat)
    (seen seen2 : List (String × Nat)) (stale : Nat) (s : List String)
    (rest : List (List String))
    (hm : ¬ maxItems ≤ seen.length)
    (hp : processHrefs target seen s = (seen2, none))
    (hg : seen2.length = seen.length)
    (hend : ¬ staleThreshold ≤ stale + 1) :
    scanLoop target maxItems staleThreshold seen stale (s :: rest)
      = scanLoop target maxItems staleThreshold seen2 (stale + 1) rest := by
  rw [scanLoop, if_neg hm, hp]
  simp [hg, hend]

/-- Step lemma: a growth round resets the stale counter. -/
theorem scanLoop_cons_growth (target : String) (maxItems staleThreshold : Nat)
    (seen seen2 : List (String × Nat)) (stale : Nat) (s : List String)
    (rest : List (List String))
    (hm : ¬ maxItems ≤ seen.length)
    (hp : processHrefs target seen s = (seen2, none))
    (hg : ¬ seen2.length = seen.length) :
    scanLoop target maxItems staleThreshold seen stale (s :: rest)
      = scanLoop target maxItems staleThreshold seen2 0 rest := by
  rw [scanLoop, if_neg hm, hp]
  simp [hg]

/-- Every `Overflow` exit reports the final table size, which is at
least `maxItems`. -/
theorem scanLoop_overflow_size (target : String) (maxItems staleThreshold : Nat)
    (snaps : List (List String)) :
    ∀ (seen : List (String × Nat)) (stale : Nat) (t : Nat),
    (scanLoop target maxItems staleThreshold seen stale snaps).1
      = some (Outcome.overflow t) →
    maxItems ≤ t
      ∧ t = (scanLoop target maxItems staleThreshold seen stale snaps).2.length := by
  induction snaps with
  | nil =>
    intro seen stale t h
    by_cases hm : maxItems ≤ seen.length
    · simp [scanLoop, hm] at h ⊢
      omega
    · simp [scanLoop, hm] at h
  | cons s rest ih =>
    intro seen stale t h
    by_cases hm : maxItems ≤ seen.length
    · rw [scanLoop_overflow_now target maxItems staleThreshold seen stale _ hm]
        at h ⊢
      simp at h ⊢
      omega
    · rcases hpp : processHrefs target seen s with ⟨seen2, found⟩
      cases found with
      | some pt =>
        rw [scanLoop_cons_found target maxItems staleThreshold seen seen2 stale
          s rest pt hm hpp] at h
        simp at h
      | none =>
        by_cases hg : seen2.length = seen.length
        · by_cases hend : staleThreshold ≤ stale + 1
          · rw [scanLoop_cons_stale_end target maxItems staleThreshold seen seen2
              stale s rest hm hpp hg hend] at h
            simp at h
          · rw [scanLoop_cons_stale_cont target maxItems staleThreshold seen seen2
              stale s rest hm hpp hg hend] at h ⊢
            exact ih seen2 (stale + 1) t h
        · rw [scanLoop_cons_growth target maxItems staleThreshold seen seen2
            stale s rest hm hpp hg] at h ⊢
          exact ih seen2 0 t h

theorem takeWhile_not_slash (l : List Char) (hl : ∀ c ∈ l, c.isDigit) :
    (l ++ ['/']).takeWhile (fun c => ¬ c = '/') = l
      ∧ (l ++ ['/']).dropWhile (fun c => ¬ c = '/') = ['/'] := by
  induction l with
  | nil => simp [List.takeWhile, List.dropWhile]
  | cons c t ih =>
    have hc : c.isDigit := hl c (List.mem_cons_self c t)
    have hcs : ¬ c = '/' := by
      intro h
      subst h
      simp [Char.isDigit] at hc
    obtain ⟨ht, hd⟩ := ih (fun x hx => hl x (List.mem_cons_of_mem c hx))
    constructor
    · simpa [List.takeWhile, hcs] using ht
    · simpa [List.dropWhile, hcs] using hd

theorem takeWhile_digits_stop (l r : List Char) (hl : ∀ c ∈ l, c.isDigit) :
    (l ++ '-' :: r).takeWhile Char.isDigit = l := by
  induction l with
  | nil => simp [List.takeWhile, Char.isDigit]
  | cons c t ih =>
    have hc : c.isDigit := hl c (List.mem_cons_self c t)
    simpa [List.takeWhile, hc] using ih (fun x hx => hl x (List.mem_cons_of_mem c hx))

/-- `extract_sku` on a well-formed product href with a nonempty all-digit
SKU. -/
theorem extract_sku_wf (s : String) (hne : s.data ≠ [])
    (hdig : ∀ c ∈ s.data, c.isDigit) :
    extract_sku (("/product/a-") ++ s ++ ("/")) = some s := by
  have hdata : (("/product/a-") ++ s ++ ("/")).data
      = '/' :: 'p' :: 'r' :: 'o' :: 'd' :: 'u' :: 'c' :: 't' :: '/' :: 'a'
        :: '-' :: (s.data ++ ['/']) := by
    simp [String.data_append]
  rw [extract_sku, hdata]
  rw [searchFrom]
  have hlit : dropLit litProduct
      ('/' :: 'p' :: 'r' :: 'o' :: 'd' :: 'u' :: 'c' :: 't' :: '/' :: 'a'
        :: '-' :: (s.data ++ ['/']))
      = some ('a' :: '-' :: (s.data ++ ['/'])) := by
    simp [litProduct, dropLit]
  obtain ⟨htw, hdw⟩ := takeWhile_not_slash s.data hdig
  simp only [decide_not] at htw hdw
  have hseg : ('a' :: '-' :: (s.data ++ ['/'])).takeWhile (fun c => ¬ c = '/')
      = 'a' :: '-' :: s.data := by
    simp [List.takeWhile]
    exact htw
  have hrest : ('a' :: '-' :: (s.data ++ ['/'])).dropWhile (fun c => ¬ c = '/')
      = ['/'] := by
    simp [List.dropWhile]
    exact hdw
  have hsplit : lastDashSplit ('a' :: '-' :: s.data) = some s.data := by
    rw [lastDashSplit]
    have hrev : ('a' :: '-' :: s.data).reverse = s.data.reverse ++ '-' :: ['a'] := by
      simp
    rw [hrev]
    have hdr : ∀ c ∈ s.data.reverse, c.isDigit := by
      intro c hc
      exact hdig c (List.mem_reverse.mp hc)
    rw [takeWhile_digits_stop s.data.reverse ['a'] hdr]
    rw [List.drop_left]
    simp only []
    rw [if_neg (by simpa using hne)]
    rw [if_neg (by simp)]
    simp
  rw [matchAt, hlit]
  simp only [hseg, hrest, hsplit]
  cases s with
  | mk data => rfl

/-- Running the inner loop over hrefs whose SKUs are fresh, pairwise
distinct and never the target: every SKU is appended with consecutive
positions. -/
theorem processHrefs_fresh (target : String) :
    ∀ (hs ss : List String) (seen : List (String × Nat)),
    hs.map extract_sku = ss.map some →
    ss.Nodup →
    (∀ s ∈ ss, tblLookup seen s = none) →
    target ∉ ss →
    processHrefs target seen hs
      = (seen ++ ss.zip (List.range' (seen.length + 1) ss.length), none) := by
  intro hs
  induction hs with
  | nil =>
    intro ss seen hmap _ _ _
    have hss : ss = [] := by
      cases ss with
      | nil => rfl
      | cons a t => simp at hmap
    subst hss
    simp [processHrefs]
  | cons h t ih =>
    intro ss seen hmap hnd hfresh htgt
    cases ss with
    | nil => simp at hmap
    | cons s ss' =>
      simp only [List.map_cons, List.cons.injEq] at hmap
      obtain ⟨hx, hmap'⟩ := hmap
      have hl : tblLookup seen s = none := hfresh s (List.mem_cons_self s ss')
      have hst : ¬ s = target := by
        intro h
        exact htgt (h ▸ List.mem_cons_self s ss')
      have hnd' : ss'.Nodup := (List.nodup_cons.mp hnd).2
      have hsm : s ∉ ss' := (List.nodup_cons.mp hnd).1
      rw [processHrefs]
      simp only [hx, hl, if_neg hst]
      rw [ih ss' (seen ++ [(s, seen.length + 1)]) hmap' hnd' ?fresh ?tgt]
      case fresh =>
        intro s' hs'
        rw [tblLookup_append_none (hfresh s' (List.mem_cons_of_mem s hs'))]
        have : ¬ s = s' := by
          intro h
          exact hsm (h ▸ hs')
        simp [tblLookup, this]
      case tgt =>
        intro h
        exact htgt (List.mem_cons_of_mem s h)
      simp only [List.length_append, List.length_cons, List.length_nil]
      rw [List.append_assoc, List.singleton_append, List.range'_succ,
        List.zip_cons_cons]

theorem skuOnes_data (i : Nat) : (skuOnes i).data = List.replicate i ('1') := rfl

theorem skuOnes_inj : Function.Injective skuOnes := by
  intro a b h
  have := congrArg (fun s => s.data.length) h
  simpa [skuOnes_data] using this

theorem extract_bigHref (i : Nat) (hi : 1 ≤ i) :
    extract_sku (bigHref i) = some (skuOnes i) := by
  apply extract_sku_wf
  · rw [skuOnes_data]
    simp
    omega
  · intro c hc
    rw [skuOnes_data] at hc
    rw [List.eq_of_mem_replicate hc]
    decide

theorem skuList_nodup (n : Nat) : (skuList n).Nodup := by
  apply List.Nodup.map
  · intro a b h
    have := skuOnes_inj h
    omega
  · exact List.nodup_range n

theorem map_extract (n : Nat) :
    ((List.range n).map (fun i => bigHref (i + 1))).map extract_sku
      = (skuList n).map some := by
  rw [skuList, List.map_map, List.map_map]
  apply List.map_congr_left
  intro i _
  simp only [Function.comp_apply]
  rw [extract_bigHref (i + 1) (by omega)]

theorem targetBig_not_mem_front : targetBig ∉ skuList 999 := by
  intro h
  obtain ⟨i, hi, hsk⟩ := List.mem_map.mp h
  have := skuOnes_inj hsk
  rw [List.mem_range] at hi
  omega

theorem front_table :
    processHrefs targetBig [] snapFront
      = ((skuList 999).zip (List.range' 1 999), none) := by
  have := processHrefs_fresh targetBig snapFront (skuList 999) []
    (map_extract 999) (skuList_nodup 999) (by intro s _; rfl)
    targetBig_not_mem_front
  simpa [skuList] using this

theorem snapBig_split : snapBig = snapFront ++ [bigHref 1000] := by
  rw [snapBig, snapFront, List.range_succ, List.map_append]
  rfl

theorem processHrefs_single_found (target : String)
    (tbl : List (String × Nat)) (h : String)
    (hx : extract_sku h = some target)
    (hl : tblLookup tbl target = none) :
    processHrefs target tbl [h]
      = (tbl ++ [(target, tbl.length + 1)],
          some (tbl.length + 1, (tbl ++ [(target, tbl.length + 1)]).length)) := by
  rw [processHrefs]
  simp only [hx, hl, if_pos rfl, if_true]

theorem full_table :
    processHrefs targetBig [] snapBig
      = (((skuList 999).zip (List.range' 1 999)) ++ [(targetBig, 1000)],
          some (1000, 1000)) := by
  have hlen : ((skuList 999).zip (List.range' 1 999)).length = 999 := by
    simp [skuList]
  have hlook : tblLookup ((skuList 999).zip (List.range' 1 999)) targetBig
      = none := by
    rw [tblLookup_eq_none_iff, List.map_fst_zip]
    · exact targetBig_not_mem_front
    · simp [skuList]
  have hx : extract_sku (bigHref 1000) = some targetBig := by
    rw [extract_bigHref 1000 (by omega)]
    rfl
  rw [snapBig_split, processHrefs_append, front_table]
  simp only []
  rw [processHrefs_single_found targetBig _ (bigHref 1000) hx hlook]
  rw [List.length_append, hlen]
  norm_num

theorem scan_big :
    scanLoop targetBig 1000 5 [] 0 [snapBig]
      = (some (Outcome.found 1000 1000),
         ((skuList 999).zip (List.range' 1 999)) ++ [(targetBig, 1000)]) := by
  have h := scanLoop_cons_found targetBig 1000 5 []
    (((skuList 999).zip (List.range' 1 999)) ++ [(targetBig, 1000)]) 0 snapBig []
    (1000, 1000) (by simp) full_table
  simpa using h

theorem find_big :
    find_sku_position true targetBig 1000 5 [snapBig]
      = some ⟨targetBig, 1000, 1000⟩ := by
  rw [find_sku_position]
  have h1 : (scanLoop targetBig 1000 5 [] 0 [snapBig]).1
      = some (Outcome.found 1000 1000) := by
    rw [scan_big]
  simp [h1]

/-! ## Claim theorems. -/

/-- C1 counterexample: with `maxItems = 2` and one snapshot of three
products, the third SKU is assigned position 3 and the overflow exit
reports `totalSeen = 3`, not 2. -/
theorem overflow_boundary_counterexample :
    scanLoop ("99") 2 5 [] 0
        [[("/product/a-1/"), ("/product/a-2/"), ("/product/a-3/")]]
      = (some (Outcome.overflow 3), [(("1"), 1), (("2"), 2), (("3"), 3)])
    ∧ tblLookup [(("1"), 1), (("2"), 2), (("3"), 3)] ("3") = some 3
    ∧ ¬ (3 : Nat) = 2 := by
  refine ⟨by decide, by decide, by decide⟩

/-- C1 (amended): the ceiling is checked only at round boundaries, so a
round may assign positions past `maxItems`; every Overflow exit reports
the final table size, which is at least `maxItems` (3 in the boundary
example, with the third SKU assigned). -/
theorem overflow_reports_table_size :
    (∀ (target : String) (maxItems staleThreshold : Nat)
        (snaps : List (List String)) (seen : List (String × Nat))
        (stale t : Nat),
      (scanLoop target maxItems staleThreshold seen stale snaps).1
        = some (Outcome.overflow t) →
      maxItems ≤ t
        ∧ t = (scanLoop target maxItems staleThreshold seen stale snaps).2.length)
    ∧ scanLoop ("99") 2 5 [] 0
        [[("/product/a-1/"), ("/product/a-2/"), ("/product/a-3/")]]
      = (some (Outcome.overflow 3), [(("1"), 1), (("2"), 2), (("3"), 3)]) := by
  refine ⟨?_, by decide⟩
  intro target maxItems staleThreshold snaps seen stale t h
  exact scanLoop_overflow_size target maxItems staleThreshold snaps seen stale t h

/-- C1 witness. -/
theorem overflow_reports_table_size_witness :
    2 ≤ 3
      ∧ (3 : Nat) = (scanLoop ("99") 2 5 [] 0
          [[("/product/a-1/"), ("/product/a-2/"), ("/product/a-3/")]]).2.length :=
  overflow_reports_table_size.1 ("99") 2 5
    [[("/product/a-1/"), ("/product/a-2/"), ("/product/a-3/")]] [] 0 3 (by decide)

/-- C5 counterexample: a feed whose snapshots stop producing new
identifiers while the table is at the ceiling yields Overflow at the
next round boundary, not NotFound after `staleThreshold` stale rounds. -/
theorem stale_claim_counterexample :
    scanLoop ("99") 1 2 [] 0
        [[("/product/a-1/")], [("/product/a-1/")], [("/product/a-1/")]]
      = (some (Outcome.overflow 1), [(("1"), 1)])
    ∧ ¬ Outcome.overflow 1 = Outcome.notFound 1 := by
  refine ⟨by decide, by decide⟩

/-- C5 (amended): provided the table stays below `maxItems` and the
target is never assigned, the loop returns NotFound with the current
distinct count after exactly `staleThreshold` consecutive no-growth
rounds — no fewer (fewer stalled rounds leave the loop running), no more
(later snapshots are not consumed), and a growth round makes the
incoming stale count irrelevant.  The concrete `staleThreshold = 2`
feed stalling after `["A"]` gives `NotFound{totalSeen = 1}` after
exactly 2 stale rounds. -/
theorem stale_termination_amended :
    (∀ (target : String) (maxItems staleThreshold : Nat)
        (snaps : List (List String)) (seen : List (String × Nat)) (stale : Nat),
      seen.length < maxItems →
      stale < staleThreshold →
      (∀ s ∈ snaps.take (staleThreshold - stale),
        processHrefs target seen s = (seen, none)) →
      staleThreshold - stale ≤ snaps.length →
      scanLoop target maxItems staleThreshold seen stale snaps
        = (some (Outcome.notFound seen.length), seen))
    ∧ (∀ (target : String) (maxItems staleThreshold : Nat)
        (snaps : List (List String)) (seen : List (String × Nat)) (stale : Nat),
      seen.length < maxItems →
      (∀ s ∈ snaps, processHrefs target seen s = (seen, none)) →
      stale + snaps.length < staleThreshold →
      scanLoop target maxItems staleThreshold seen stale snaps = (none, seen))
    ∧ (∀ (target : String) (maxItems staleThreshold : Nat)
        (seen tbl : List (String × Nat)) (st1 st2 : Nat) (s : List String)
        (rest : List (List String)),
      processHrefs target seen s = (tbl, none) →
      tbl.length ≠ seen.length →
      seen.length < maxItems →
      scanLoop target maxItems staleThreshold seen st1 (s :: rest)
        = scanLoop target maxItems staleThreshold seen st2 (s :: rest))
    ∧ scanLoop ("99") 1000 2 [] 0
        [[("/product/a-1/")], [("/product/a-1/")], [("/product/a-1/")]]
      = (some (Outcome.notFound 1), [(("1"), 1)])
    ∧ scanLoop ("99") 1000 2 [] 0 [[("/product/a-1/")], [("/product/a-1/")]]
      = (none, [(("1"), 1)])
    ∧ scanLoop ("99") 1000 2 [] 0
        [[("/product/a-1/")], [("/product/a-1/")], [("/product/a-1/")],
         [("/product/b-2/")]]
      = (some (Outcome.notFound 1), [(("1"), 1)]) := by
  refine ⟨?_, ?_, ?_, by decide, by decide, by decide⟩
  · intro target maxItems staleThreshold snaps seen stale h1 h2 h3 h4
    exact scanLoop_stale_exact target maxItems staleThreshold snaps seen stale
      h1 h2 h3 h4
  · intro target maxItems staleThreshold snaps seen stale h1 h2 h3
    exact scanLoop_stale_pending target maxItems staleThreshold snaps seen stale
      h1 h2 h3
  · intro target maxItems staleThreshold seen tbl st1 st2 s rest h1 h2 h3
    exact scanLoop_growth_resets target maxItems staleThreshold seen tbl st1 st2
      s rest h1 h2 h3

/-- C5 witness. -/
theorem stale_termination_amended_witness :
    scanLoop ("9") 5 1 [] 0 [[]] = (some (Outcome.notFound 0), []) :=
  stale_termination_amended.1 ("9") 5 1 [[]] [] 0 (by decide) (by decide)
    (by decide) (by decide)

/-- C6: once the target is assigned, the inner loop returns at once —
hrefs after the target in the snapshot are never read, and the round
result is the loop result; in the spec example the third product never
enters the table. -/
theorem found_short_circuit :
    (∀ (target : String) (seen tbl : List (String × Nat)) (xs ys : List String)
        (pt : Nat × Nat),
      processHrefs target seen xs = (tbl, some pt) →
      processHrefs target seen (xs ++ ys) = (tbl, some pt))
    ∧ (∀ (target : String) (maxItems staleThreshold : Nat)
        (seen tbl : List (String × Nat)) (stale : Nat) (s : List String)
        (rest : List (List String)) (pt : Nat × Nat),
      processHrefs target seen s = (tbl, some pt) →
      seen.length < maxItems →
      scanLoop target maxItems staleThreshold seen stale (s :: rest)
        = (some (Outcome.found pt.1 pt.2), tbl))
    ∧ scanLoop ("2") 1000 5 [] 0
        [[("/product/a-1/"), ("/product/a-2/"), ("/product/a-3/")]]
      = (some (Outcome.found 2 2), [(("1"), 1), (("2"), 2)]) := by
  refine ⟨?_, ?_, by decide⟩
  · intro target seen tbl xs ys pt h
    rw [processHrefs_append, h]
  · intro target maxItems staleThreshold seen tbl stale s rest pt h hm
    exact scanLoop_cons_found target maxItems staleThreshold seen tbl stale s
      rest pt (Nat.not_le.mpr hm) h

/-- C6 witness. -/
theorem found_short_circuit_witness :
    processHrefs ("1") [] ([("/product/a-1/")] ++ [("/product/x-9/")])
      = ([(("1"), 1)], some (1, 1)) :=
  found_short_circuit.1 ("1") [] [(("1"), 1)] [("/product/a-1/")]
    [("/product/x-9/")] (1, 1) (by decide)

/-- C7: an assigned position survives the whole remaining scan
unchanged, and the new identifiers of one round extend the table with
consecutive positions in snapshot order; the two-snapshot spec example
gives positions 1, 2, 3. -/
theorem position_assignment_stable :
    (∀ (target : String) (maxItems staleThreshold : Nat)
        (seen : List (String × Nat)) (stale : Nat)
        (snaps : List (List String)) (sku : String) (p : Nat),
      tblLookup seen sku = some p →
      tblLookup (scanLoop target maxItems staleThreshold seen stale snaps).2 sku
        = some p)
    ∧ (∀ (target : String) (seen : List (String × Nat)) (hs : List String),
      ∃ d, (processHrefs target seen hs).1 = seen ++ d
        ∧ d.map Prod.snd = List.range' (seen.length + 1) d.length)
    ∧ (scanLoop ("99") 1000 5 [] 0
        [[("/product/a-1/"), ("/product/a-2/")],
         [("/product/a-1/"), ("/product/a-2/"), ("/product/a-3/")]]).2
      = [(("1"), 1), (("2"), 2), (("3"), 3)] := by
  refine ⟨?_, ?_, by decide⟩
  · intro target maxItems staleThreshold seen stale snaps sku p h
    obtain ⟨d, hd, _, _, _⟩ := scanLoop_table target maxItems staleThreshold
      snaps seen stale
    rw [hd]
    exact tblLookup_append_some h
  · intro target seen hs
    obtain ⟨d, h1, h2, _, _⟩ := processHrefs_table target hs seen
    exact ⟨d, h1, h2⟩

/-- C7 witness. -/
theorem position_assignment_stable_witness :
    tblLookup (scanLoop ("9") 10 5 [(("7"), 1)] 0 [[("/product/a-8/")]]).2 ("7")
      = some 1 :=
  position_assignment_stable.1 ("9") 10 5 [(("7"), 1)] 0 [[("/product/a-8/")]]
    ("7") 1 (by decide)

theorem wf_extend {seen d : List (String × Nat)} (hwf : RankTableWF seen)
    (h2 : d.map Prod.snd = List.range' (seen.length + 1) d.length)
    (h3 : (d.map Prod.fst).Nodup)
    (h4 : ∀ p ∈ d, tblLookup seen p.1 = none) :
    RankTableWF (seen ++ d) := by
  constructor
  · rw [List.map_append, hwf.1, h2, List.length_append]
    rw [show seen.length + 1 = 1 + seen.length from by omega,
      show seen.length + d.length = d.length + seen.length from by omega]
    exact List.range'_append_1 1 seen.length d.length
  · rw [List.map_append, List.nodup_append]
    refine ⟨hwf.2, h3, ?_⟩
    intro k hk1 hk2
    obtain ⟨q, hq, hqk⟩ := List.mem_map.mp hk2
    have := h4 q hq
    rw [tblLookup_eq_none_iff] at this
    exact this (hqk ▸ hk1)

/-- C9: the rank table is injective with positions exactly
`{1, ..., size}` at every point of the scan: well-formedness is
preserved by every inner loop run and every scan-loop run, and the final
table of any scan from the empty table has position set `{1, ..., n}`
with no duplicate positions or keys. -/
theorem rank_table_bijective :
    (∀ (target : String) (seen : List (String × Nat)) (hs : List String),
      RankTableWF seen → RankTableWF (processHrefs target seen hs).1)
    ∧ (∀ (target : String) (maxItems staleThreshold : Nat)
        (seen : List (String × Nat)) (stale : Nat) (snaps : List (List String)),
      RankTableWF seen →
      RankTableWF (scanLoop target maxItems staleThreshold seen stale snaps).2)
    ∧ (∀ (target : String) (maxItems staleThreshold : Nat)
        (snaps : List (List String)) (p : Nat),
      (p ∈ (scanLoop target maxItems staleThreshold [] 0 snaps).2.map Prod.snd
        ↔ 1 ≤ p ∧ p ≤ (scanLoop target maxItems staleThreshold [] 0 snaps).2.length)
      ∧ ((scanLoop target maxItems staleThreshold [] 0 snaps).2.map Prod.snd).Nodup
      ∧ ((scanLoop target maxItems staleThreshold [] 0 snaps).2.map Prod.fst).Nodup) := by
  have hbase : RankTableWF [] := ⟨rfl, List.nodup_nil⟩
  have hscan : ∀ (target : String) (maxItems staleThreshold : Nat)
      (seen : List (String × Nat)) (stale : Nat) (snaps : List (List String)),
      RankTableWF seen →
      RankTableWF (scanLoop target maxItems staleThreshold seen stale snaps).2 := by
    intro target maxItems staleThreshold seen stale snaps hwf
    obtain ⟨d, hd, h2, h3, h4⟩ := scanLoop_table target maxItems staleThreshold
      snaps seen stale
    rw [hd]
    exact wf_extend hwf h2 h3 h4
  refine ⟨?_, hscan, ?_⟩
  · intro target seen hs hwf
    obtain ⟨d, hd, h2, h3, h4⟩ := processHrefs_table target hs seen
    rw [hd]
    exact wf_extend hwf h2 h3 h4
  · intro target maxItems staleThreshold snaps p
    obtain ⟨hpos, hkeys⟩ := hscan target maxItems staleThreshold [] 0 snaps hbase
    refine ⟨?_, ?_, hkeys⟩
    · rw [hpos, List.mem_range'_1]
      omega
    · rw [hpos]
      exact List.nodup_range' 1 _

/-- C9 witness. -/
theorem rank_table_bijective_witness :
    RankTableWF (scanLoop ("9") 10 5 [] 0 [[("/product/a-8/")]]).2 :=
  rank_table_bijective.2.1 ("9") 10 5 [] 0 [[("/product/a-8/")]]
    ⟨rfl, List.nodup_nil⟩

/-- C2 (the code bug): `sheets_writer` invokes `write_result` with three
positional arguments while `write_result(row, value)` takes two, so
every invocation raises `TypeError` before any cell is written; the
consumer still dequeues each job exactly once, in order, and stops at
the marker. -/
theorem write_pipeline_arity_bug :
    sheets_writer_invoke ⟨2, ("5"), true⟩ = Except.error ("TypeError")
    ∧ sheets_writer_loop sheets_writer_invoke [some ⟨2, ("5"), true⟩, none]
      = ([(⟨2, ("5"), true⟩, Except.error ("TypeError"))], true, [])
    ∧ ¬ (3 : Nat) = write_result_paramcount := by
  refine ⟨rfl, rfl, by decide⟩

/-- C8: the consumer invokes the writer once per job in enqueue order
whatever the outcomes of the individual writes, stops exactly on the
marker (leaving anything after it unread, never passing the marker to
the writer), and without a marker never stops. -/
theorem writer_consumer_discipline :
    (∀ (writer : WriteJob → Except String Unit) (jobs : List WriteJob)
        (rest : List (Option WriteJob)),
      sheets_writer_loop writer (jobs.map some ++ none :: rest)
        = (jobs.map (fun j => (j, writer j)), true, rest))
    ∧ (∀ (writer : WriteJob → Except String Unit) (jobs : List WriteJob),
      sheets_writer_loop writer (jobs.map some)
        = (jobs.map (fun j => (j, writer j)), false, [])) := by
  constructor
  · intro writer jobs rest
    induction jobs with
    | nil => simp [sheets_writer_loop]
    | cons j t ih => simp [sheets_writer_loop, ih]
  · intro writer jobs
    induction jobs with
    | nil => simp [sheets_writer_loop]
    | cons j t ih => simp [sheets_writer_loop, ih]

/-- C4 (the code bug): the retry condition reads a `needs_retry` key the
result dict never carries, so a run with more than zero attempts always
returns the first attempt's result — a failed initial wait (attempt 0
returning `None`) is final even when a second attempt would have
succeeded. -/
theorem load_guard_never_retries :
    (∀ r : FindResult, r.get_needs_retry = none)
    ∧ (∀ (attempts : Nat → Option FindResult) (mr : Nat),
      search_with_retry attempts (mr + 1) = attempts 0)
    ∧ search_with_retry
        (fun k => if k = 0 then none else some ⟨("42"), 5, 10⟩) 3 = none
    ∧ (fun k : Nat => if k = 0 then none else some ⟨("42"), 5, 10⟩) 1
      = some (⟨("42"), 5, 10⟩ : FindResult) := by
  refine ⟨fun r => rfl, ?_, rfl, rfl⟩
  intro attempts mr
  rw [search_with_retry, retry_go]
  cases h : attempts 0 with
  | none => rfl
  | some r => simp [pyTruthyNat, FindResult.get_needs_retry]

/-- C3 counterexample: a query found at position 1000 (= `maxItems`) is
written as the sentinel `"1000+"`, not as the decimal string `"1000"`:
`is_found = position < 1000` excludes position 1000. -/
theorem value_mapping_counterexample :
    (scanLoop targetBig 1000 5 [] 0 [snapBig]).1
      = some (Outcome.found 1000 1000)
    ∧ result_to_value (find_sku_position true targetBig 1000 5 [snapBig])
      = (("1000+"), false)
    ∧ ¬ (("1000+") : String) = toString (1000 : Nat) := by
  refine ⟨?_, ?_, by decide⟩
  · rw [scan_big]
  · rw [find_big, result_to_value]
    norm_num

/-- C3 (amended): the written value is the decimal string of the
position exactly when the outcome is Found with position ≤ 999; a Found
at position ≥ 1000, a NotFound, an Overflow, or a failed wait all yield
the sentinel `"1000+"` (with `is_found = False`). -/
theorem value_mapping_amended :
    (∀ r : FindResult, r.position < 1000 →
      result_to_value (some r) = (toString r.position, true))
    ∧ (∀ r : FindResult, 1000 ≤ r.position →
      result_to_value (some r) = (("1000+"), false))
    ∧ result_to_value none = (("1000+"), false)
    ∧ (∀ (target : String) (maxItems staleThreshold : Nat)
        (snaps : List (List String)) (p t : Nat),
      (scanLoop target maxItems staleThreshold [] 0 snaps).1
        = some (Outcome.found p t) →
      find_sku_position true target maxItems staleThreshold snaps
        = some ⟨target, p, t⟩)
    ∧ (∀ (target : String) (maxItems staleThreshold : Nat)
        (snaps : List (List String)) (t : Nat),
      (scanLoop target maxItems staleThreshold [] 0 snaps).1
        = some (Outcome.notFound t) →
      result_to_value (find_sku_position true target maxItems staleThreshold
        snaps) = (("1000+"), false))
    ∧ (∀ (target : String) (maxItems staleThreshold : Nat)
        (snaps : List (List String)) (t : Nat),
      (scanLoop target maxItems staleThreshold [] 0 snaps).1
        = some (Outcome.overflow t) →
      result_to_value (find_sku_position true target maxItems staleThreshold
        snaps) = (("1000+"), false))
    ∧ (∀ (target : String) (maxItems staleThreshold : Nat)
        (snaps : List (List String)),
      result_to_value (find_sku_position false target maxItems staleThreshold
        snaps) = (("1000+"), false)) := by
  refine ⟨?_, ?_, rfl, ?_, ?_, ?_, ?_⟩
  · intro r h
    rw [result_to_value, if_pos h]
  · intro r h
    rw [result_to_value, if_neg (by omega)]
  · intro target maxItems staleThreshold snaps p t h
    rw [find_sku_position]
    simp [h]
  · intro target maxItems staleThreshold snaps t h
    rw [find_sku_position]
    simp [h, result_to_value]
  · intro target maxItems staleThreshold snaps t h
    rw [find_sku_position]
    simp [h, result_to_value]
  · intro target maxItems staleThreshold snaps
    rw [find_sku_position]
    simp [result_to_value]

/-- C3 witness. -/
theorem value_mapping_amended_witness :
    result_to_value (some ⟨("7"), 7, 7⟩) = (toString (7 : Nat), true) :=
  value_mapping_amended.1 ⟨("7"), 7, 7⟩ (by decide)

/-- C10 counterexample: a raw evaluation result that is the string
`"42"` decodes to an integer, and the final comprehension then iterates
a non-iterable — `get_product_hrefs` raises `TypeError` instead of
returning a list. -/
theorem hrefs_total_counterexample :
    get_product_hrefs loadsFortyTwo (PyObj.pstr ("42"))
      = Except.error ("TypeError")
    ∧ ∀ l : List String,
      ¬ get_product_hrefs loadsFortyTwo (PyObj.pstr ("42")) = Except.ok l := by
  refine ⟨rfl, ?_⟩
  intro l h
  rw [show get_product_hrefs loadsFortyTwo (PyObj.pstr ("42"))
      = Except.error ("TypeError") from rfl] at h
  cases h

/-- C10 (amended): `get_product_hrefs` can only fail when the unwrapped
raw value is a string whose JSON decoding succeeds with a non-iterable
value; every other shape — wrapped values, non-string/non-list values,
lists with non-string entries, undecodable strings — yields a list
containing only strings (undecodable strings yield `[]`). -/
theorem hrefs_total_amended :
    (∀ (loads : String → Except Unit PyObj) (raw : PyObj) (e : String),
      get_product_hrefs loads raw = Except.error e →
      ∃ s v, unwrap_js_value raw = PyObj.pstr s ∧ loads s = Except.ok v
        ∧ pyIter v = Except.error e)
    ∧ (∀ (loads : String → Except Unit PyObj) (raw : PyObj),
      (∀ s : String, ¬ unwrap_js_value raw = PyObj.pstr s) →
      ∃ l : List String, get_product_hrefs loads raw = Except.ok l)
    ∧ (∀ (loads : String → Except Unit PyObj) (raw : PyObj) (s : String),
      unwrap_js_value raw = PyObj.pstr s → loads s = Except.error () →
      get_product_hrefs loads raw = Except.ok []) := by
  refine ⟨?_, ?_, ?_⟩
  · intro loads raw e h
    cases hu : unwrap_js_value raw with
    | pstr s =>
      simp only [get_product_hrefs, hu] at h
      cases hl : loads s with
      | ok v =>
        simp only [hl] at h
        cases hi : pyIter v with
        | ok items => simp only [hi] at h; cases h
        | error e2 =>
          simp only [hi] at h
          cases h
          exact ⟨s, v, rfl, hl, hi⟩
      | error u =>
        simp only [hl, pyIter] at h
        cases h
    | plist xs =>
      simp only [get_product_hrefs, hu, pyIter] at h
      cases h
    | pint n =>
      simp only [get_product_hrefs, hu, pyIter] at h
      cases h
    | pbool b =>
      simp only [get_product_hrefs, hu, pyIter] at h
      cases h
    | pnone =>
      simp only [get_product_hrefs, hu, pyIter] at h
      cases h
    | pdict kvs =>
      simp only [get_product_hrefs, hu, pyIter] at h
      cases h
  · intro loads raw hns
    cases hu : unwrap_js_value raw with
    | pstr s => exact absurd hu (hns s)
    | plist xs =>
      refine ⟨xs.filterMap (fun x =>
        match x with
        | PyObj.pstr s2 => some s2
        | _ => none), ?_⟩
      simp only [get_product_hrefs, hu, pyIter]
    | pint n =>
      refine ⟨[], ?_⟩
      simp only [get_product_hrefs, hu, pyIter, List.filterMap_nil]
    | pbool b =>
      refine ⟨[], ?_⟩
      simp only [get_product_hrefs, hu, pyIter, List.filterMap_nil]
    | pnone =>
      refine ⟨[], ?_⟩
      simp only [get_product_hrefs, hu, pyIter, List.filterMap_nil]
    | pdict kvs =>
      refine ⟨[], ?_⟩
      simp only [get_product_hrefs, hu, pyIter, List.filterMap_nil]
  · intro loads raw s hu hl
    simp only [get_product_hrefs, hu, hl, pyIter, List.filterMap_nil]

/-- C10 witness. -/
theorem hrefs_total_amended_witness :
    ∃ l : List String,
      get_product_hrefs loadsFortyTwo (PyObj.pint 5) = Except.ok l :=
  hrefs_total_amended.2.1 loadsFortyTwo (PyObj.pint 5)
    (by intro s h; simp [unwrap_js_value] at h)
